import Mathlib

/-!
Verification development for the trails repository's store-location
resolution and initialization subsystem.

The TypeScript sources are shallowly embedded as executable Lean
definitions:
* `packages/fieldbooks-lib/src/paths.ts` — path resolution
  (`getFieldbookDir`, `resolvePaths`);
* `packages/fieldbooks-lib/src/config.ts` — config schema and loader
  (`FieldbookConfigSchema`, `loadConfig`), with the relevant zod
  combinators modelled as error-accumulating parsers;
* `packages/logbooks-lib/src/retry.ts` — bounded retry with callbacks
  (`retry`), modelled as a deterministic trace over a sequence of
  per-invocation outcomes;
* `packages/fieldbooks-lib/src/db.ts` — legacy database migration
  (`migrateLegacyDb`), over a finite-map filesystem model.

External-library behaviour that the embedded code calls into (Node's
`path` module, `fs-extra`'s `move`) is modelled by small functions whose
doc comments state the modelled behaviour; the embedded repository code
itself is translated line by line from the source.
-/

namespace Trails

/-! ## Model of Node `path` (posix flavour)

Simplifications documented here once: `pathJoin` does not normalize
`.`/`..` segments or duplicate slashes, and `dirname` does not handle
trailing slashes; no input in this development exercises those corners. -/

/-- Model of Node `path.join` on two segments (posix, no normalization):
empty segments are dropped, otherwise the segments are joined with `/`. -/
def pathJoin (a b : String) : String :=
  if a = "" then b else if b = "" then a else a ++ "/" ++ b

/-- Join a list of strings with a separator, as JavaScript `Array.join`. -/
def joinWith (sep : String) : List String → String
  | [] => ""
  | [x] => x
  | x :: y :: xs => x ++ sep ++ joinWith sep (y :: xs)

/-- Character-list version of "starts with" (structural recursion, so that
concrete path computations reduce inside the kernel). The first argument
is the candidate leading segment. -/
def listStarts : List Char → List Char → Bool
  | [], _ => true
  | _ :: _, [] => false
  | a :: as, b :: bs => a == b && listStarts as bs

/-- Whether `s` starts with `pat` (model of JavaScript `startsWith`). -/
def strStarts (s pat : String) : Bool := listStarts pat.data s.data

/-- Whether `s` ends with `pat` (model of JavaScript `endsWith`). -/
def strEnds (s pat : String) : Bool := listStarts pat.data.reverse s.data.reverse

/-- Model of Node `path.dirname` (posix): everything before the last `/`,
`"."` when there is no slash, `"/"` when the slash is leading. -/
def dirname (p : String) : String :=
  let cs := p.data
  if cs.contains '/' then
    let kept := ((cs.reverse.dropWhile fun c => c ≠ '/').drop 1).reverse
    if kept.isEmpty then "/" else String.mk kept
  else "."

/-- Model of Node `path.resolve` on one argument: an absolute path is kept,
a relative one is resolved against the current working directory. -/
def resolvePath (cwd p : String) : String :=
  if strStarts p "/" then p else pathJoin cwd p

/-- JavaScript truthiness of an optional string: present and non-empty.
Used wherever the source guards an environment variable or option with
`if (x)` or `x || y`. -/
def truthy : Option String → Bool
  | some s => !(s == "")
  | none => false

/-! ## Process environment

The sources read the process environment (`process.env.*`, `process.cwd()`,
`os.homedir()`) and, in `getFieldbookDir`, the result of the filesystem
walk `findFieldbookDir`. All of these reads are collected into one
explicit environment record passed to the embedded functions. -/

/-- Ambient process state read by the path-resolution functions.
`findFieldbookResult` is the value the filesystem walk `findFieldbookDir`
would return; it is an input here because the walk itself is a filesystem
read. `resolvePaths` in the source never performs that walk, which the
embedding reflects by never reading this field there. -/
structure Env where
  /-- Value of `process.cwd()`. -/
  cwd : String
  /-- Value of `os.homedir()` (empty string models the degenerate
  "no home directory" case that `xdg-basedir` guards against). -/
  osHome : String
  /-- Value of `process.env.HOME`. -/
  homeEnv : Option String
  /-- Value of `process.env.XDG_CONFIG_HOME`. -/
  xdgConfigHomeEnv : Option String
  /-- Value of `process.env.FIELDBOOKS_PATH`. -/
  fieldbooksPathEnv : Option String
  /-- Value of `process.env.FIELDBOOKS_DB`. -/
  fieldbooksDbEnv : Option String
  /-- Result of `findFieldbookDir()` (the upward `.fieldbook` search). -/
  findFieldbookResult : Option String
deriving Repr, DecidableEq

/-- Options accepted by `getFieldbookDir` (paths.ts `FieldbookPathOptions`). -/
structure FieldbookPathOptions where
  /-- Use the global fieldbook instead of the project-local one. -/
  global : Bool := false
  /-- Custom path to the fieldbook directory. -/
  path : Option String := none
deriving Repr, DecidableEq

/-- Embedding of `getGlobalFieldbookDir` (paths.ts lines 25–28):
`XDG_CONFIG_HOME || join(homedir(), ".config")`, then the `fieldbooks`
subdirectory. -/
def getGlobalFieldbookDir (env : Env) : String :=
  let configHome :=
    if truthy env.xdgConfigHomeEnv then env.xdgConfigHomeEnv.getD ""
    else pathJoin env.osHome ".config"
  pathJoin configHome "fieldbooks"

/-- Embedding of `getFieldbookDir` (paths.ts lines 72–106): six-rule
resolution precedence, first match wins. -/
def getFieldbookDir (env : Env) (options : FieldbookPathOptions) : String :=
  -- 1. Custom path takes precedence
  if truthy options.path then resolvePath env.cwd (options.path.getD "")
  -- 2. Global flag
  else if options.global then getGlobalFieldbookDir env
  -- 3. Environment variable for directory
  else if truthy env.fieldbooksPathEnv then
    resolvePath env.cwd (env.fieldbooksPathEnv.getD "")
  -- 4. Environment variable for database
  else if truthy env.fieldbooksDbEnv then
    let dbPath := env.fieldbooksDbEnv.getD ""
    if strEnds dbPath ".sqlite" then dirname (resolvePath env.cwd dbPath)
    else resolvePath env.cwd dbPath
  -- 5. Search parent directories
  else if truthy env.findFieldbookResult then env.findFieldbookResult.getD ""
  -- 6. Default to current directory
  else pathJoin env.cwd ".fieldbook"

/-- Model of the `xdg-basedir` package's exported `xdgConfig` value:
`process.env.XDG_CONFIG_HOME || (homedir ? join(homedir, ".config")
: undefined)`. -/
def xdgConfig (env : Env) : Option String :=
  if truthy env.xdgConfigHomeEnv then some (env.xdgConfigHomeEnv.getD "")
  else if env.osHome = "" then none
  else some (pathJoin env.osHome ".config")

/-- Constant `GLOBAL_DIR_NAME` from paths.ts. -/
def GLOBAL_DIR_NAME : String := "fieldbooks"

/-- Constant `PROJECT_DIR_NAME` from paths.ts. -/
def PROJECT_DIR_NAME : String := ".fieldbook"

/-- Constant `DB_FILE_NAME` from paths.ts. -/
def DB_FILE_NAME : String := "fieldbook.sqlite"

/-- Structured result of `resolvePaths` (paths.ts `FieldbookPaths`). -/
structure FieldbookPaths where
  /-- The root directory for the fieldbook. -/
  root : String
  /-- The absolute path to the SQLite database file. -/
  database : String
  /-- The absolute path to the project-specific config file. -/
  projectConfig : Option String
  /-- The absolute path to the global config file. -/
  globalConfig : Option String
deriving Repr, DecidableEq

/-- Options accepted by `resolvePaths` (`{ global?: boolean }`). -/
structure ResolveOptions where
  /-- The `--global` flag. -/
  global : Bool := false
deriving Repr, DecidableEq

/-! ## JSON values and the zod combinators used by the config schema

A config document delivered by `cosmiconfig` is modelled as a JSON value
(numbers as rationals, objects as association lists; an absent key plays
the role of JavaScript `undefined`). The zod combinators used by
`FieldbookConfigSchema` — `z.object`, `.optional()`, `.default(v)`,
`z.string()`, `z.boolean()`, `z.enum`, `z.literal`,
`z.number().int().positive()` — are modelled as parsers that accumulate
one issue per failing check, each issue carrying the path of the failing
field, exactly as a `ZodError` does. -/

/-- JSON value, the input type of the schema parser. -/
inductive Json where
  | null : Json
  | bool (b : Bool) : Json
  | num (q : ℚ) : Json
  | str (s : String) : Json
  | arr (elems : List Json) : Json
  | obj (fields : List (String × Json)) : Json
deriving Repr

/-- One zod issue: the path of the offending field and a message. -/
structure ZodIssue where
  /-- Path segments from the root of the document to the failing field. -/
  path : List String
  /-- Human-readable description of the violation. -/
  message : String
deriving Repr, DecidableEq

/-- Result of running a zod parser: the parsed value, or every issue found. -/
abbrev ZResult (α : Type) : Type := Except (List ZodIssue) α

/-- Lift a pure value into a parse result. -/
def zpure {α : Type} (a : α) : ZResult α := .ok a

/-- Combine two parse results, accumulating issues from both sides, as zod
does when it parses every field of an object shape. -/
def zseq {α β : Type} : ZResult (α → β) → ZResult α → ZResult β
  | .ok f, .ok a => .ok (f a)
  | .error e1, .error e2 => .error (e1 ++ e2)
  | .error e1, .ok _ => .error e1
  | .ok _, .error e2 => .error e2

/-- Push a field name onto the path of every issue, as zod does when a
nested parser fails under an object key. -/
def underKey (key : String) (issues : List ZodIssue) : List ZodIssue :=
  issues.map fun i => { i with path := key :: i.path }

/-- Look up a key in a JSON object's fields (first occurrence). -/
def getField (fields : List (String × Json)) (key : String) : Option Json :=
  (fields.find? fun kv => kv.1 == key).map fun kv => kv.2

/-- Model of `schema.optional()` applied at an object key: an absent key
parses to `none`; a present value is parsed, issues nested under `key`. -/
def optionalField {α : Type} (fields : List (String × Json)) (key : String)
    (p : Json → ZResult α) : ZResult (Option α) :=
  match getField fields key with
  | none => .ok none
  | some j =>
    match p j with
    | .ok a => .ok (some a)
    | .error issues => .error (underKey key issues)

/-- Model of `schema.default(d)` applied at an object key: an absent key
parses to the default; a present value is parsed, issues nested under
`key`. -/
def defaultField {α : Type} (fields : List (String × Json)) (key : String)
    (p : Json → ZResult α) (d : α) : ZResult α :=
  match getField fields key with
  | none => .ok d
  | some j =>
    match p j with
    | .ok a => .ok a
    | .error issues => .error (underKey key issues)

/-- Model of `z.string()`. -/
def parseStringZ : Json → ZResult String
  | .str s => .ok s
  | _ => .error [⟨[], "Expected string"⟩]

/-- Model of `z.boolean()`. -/
def parseBoolZ : Json → ZResult Bool
  | .bool b => .ok b
  | _ => .error [⟨[], "Expected boolean"⟩]

/-- Model of `z.enum(choices)` (issue messages abridged; no claim depends
on the message text, only on issue paths). -/
def parseEnumZ (choices : List String) : Json → ZResult String
  | .str s =>
    if choices.contains s then .ok s
    else .error [⟨[], "Invalid enum value"⟩]
  | _ => .error [⟨[], "Expected enum value"⟩]

/-- Model of `z.literal(lit)` for a string literal. -/
def parseLiteralZ (lit : String) : Json → ZResult String
  | .str s =>
    if s = lit then .ok s else .error [⟨[], "Invalid literal value"⟩]
  | _ => .error [⟨[], "Invalid literal value"⟩]

/-- Model of `z.number().int().positive()`: both checks run and each
failing check contributes its own issue, as zod number checks do. -/
def parseIntPositiveZ : Json → ZResult ℚ
  | .num q =>
    let issues :=
      (if q.den = 1 then [] else [(⟨[], "Expected integer"⟩ : ZodIssue)]) ++
      (if 0 < q then [] else [(⟨[], "Number must be greater than 0"⟩ : ZodIssue)])
    if issues.isEmpty then .ok q else .error issues
  | _ => .error [⟨[], "Expected number"⟩]

/-! ## The config schema (config.ts `FieldbookConfigSchema`)

One Lean structure per `z.object` group, one parser per group, translated
field by field from config.ts lines 11–102. -/

/-- Validated `author` group. -/
structure AuthorConfig where
  defaultId : Option String
  defaultType : Option String
  defaultName : Option String
  model : Option String
  tool : Option String
  serviceType : Option String
deriving Repr, DecidableEq

/-- Validated `database.backup` group. -/
structure BackupConfig where
  enabled : Bool
  interval : String
  retention : Option ℚ
  location : String
deriving Repr, DecidableEq

/-- Validated `database` group. -/
structure DatabaseConfig where
  path : Option String
  backup : Option BackupConfig
deriving Repr, DecidableEq

/-- Validated `cli` group. -/
structure CliConfig where
  defaultCommand : String
  listLimit : ℚ
  richOutput : Bool
  timestampFormat : String
  editor : Option String
deriving Repr, DecidableEq

/-- Validated `entries.metadata` group. -/
structure MetadataConfig where
  includeGitBranch : Bool
  includeHostname : Bool
  includeWorkingDirectory : Bool
deriving Repr, DecidableEq

/-- Validated `entries` group. -/
structure EntriesConfig where
  defaultType : String
  metadata : Option MetadataConfig
deriving Repr, DecidableEq

/-- Validated `hooks` group. -/
structure HooksConfig where
  preAdd : Option String
  postAdd : Option String
  preCommit : Option String
deriving Repr, DecidableEq

/-- Validated `export.auto` group. -/
structure AutoExportConfig where
  onCommit : Bool
  format : String
  location : Option String
deriving Repr, DecidableEq

/-- Validated `export` group. -/
structure ExportConfig where
  auto : Option AutoExportConfig
deriving Repr, DecidableEq

/-- Validated top-level config object (`FieldbookConfig`). The source
field name `export` is a Lean keyword and is rendered `exportCfg`. -/
structure FieldbookConfig where
  version : String
  author : Option AuthorConfig
  database : Option DatabaseConfig
  cli : Option CliConfig
  entries : Option EntriesConfig
  hooks : Option HooksConfig
  exportCfg : Option ExportConfig
deriving Repr, DecidableEq

/-- Parser for the `author` group (config.ts lines 20–29). -/
def parseAuthor : Json → ZResult AuthorConfig
  | .obj fs =>
    zseq (zseq (zseq (zseq (zseq (zseq (zpure AuthorConfig.mk)
      (optionalField fs "defaultId" parseStringZ))
      (optionalField fs "defaultType" (parseEnumZ ["user", "agent", "service"])))
      (optionalField fs "defaultName" parseStringZ))
      (optionalField fs "model" parseStringZ))
      (optionalField fs "tool" parseStringZ))
      (optionalField fs "serviceType" parseStringZ)
  | _ => .error [⟨[], "Expected object"⟩]

/-- Parser for the `database.backup` group (config.ts lines 37–44). -/
def parseBackup : Json → ZResult BackupConfig
  | .obj fs =>
    zseq (zseq (zseq (zseq (zpure BackupConfig.mk)
      (defaultField fs "enabled" parseBoolZ false))
      (defaultField fs "interval" (parseEnumZ ["hourly", "daily", "weekly"]) "daily"))
      (optionalField fs "retention" parseIntPositiveZ))
      (defaultField fs "location" parseStringZ "./backups/")
  | _ => .error [⟨[], "Expected object"⟩]

/-- Parser for the `database` group (config.ts lines 34–46). -/
def parseDatabase : Json → ZResult DatabaseConfig
  | .obj fs =>
    zseq (zseq (zpure DatabaseConfig.mk)
      (optionalField fs "path" parseStringZ))
      (optionalField fs "backup" parseBackup)
  | _ => .error [⟨[], "Expected object"⟩]

/-- Parser for the `cli` group (config.ts lines 51–59). -/
def parseCli : Json → ZResult CliConfig
  | .obj fs =>
    zseq (zseq (zseq (zseq (zseq (zpure CliConfig.mk)
      (defaultField fs "defaultCommand" (parseEnumZ ["list", "add"]) "list"))
      (defaultField fs "listLimit" parseIntPositiveZ 20))
      (defaultField fs "richOutput" parseBoolZ true))
      (defaultField fs "timestampFormat" (parseEnumZ ["iso", "relative", "local"]) "relative"))
      (optionalField fs "editor" parseStringZ)
  | _ => .error [⟨[], "Expected object"⟩]

/-- Parser for the `entries.metadata` group (config.ts lines 67–73). -/
def parseMetadata : Json → ZResult MetadataConfig
  | .obj fs =>
    zseq (zseq (zseq (zpure MetadataConfig.mk)
      (defaultField fs "includeGitBranch" parseBoolZ false))
      (defaultField fs "includeHostname" parseBoolZ false))
      (defaultField fs "includeWorkingDirectory" parseBoolZ false)
  | _ => .error [⟨[], "Expected object"⟩]

/-- Parser for the `entries` group (config.ts lines 64–75). -/
def parseEntries : Json → ZResult EntriesConfig
  | .obj fs =>
    zseq (zseq (zpure EntriesConfig.mk)
      (defaultField fs "defaultType" parseStringZ "update"))
      (optionalField fs "metadata" parseMetadata)
  | _ => .error [⟨[], "Expected object"⟩]

/-- Parser for the `hooks` group (config.ts lines 80–86). -/
def parseHooks : Json → ZResult HooksConfig
  | .obj fs =>
    zseq (zseq (zseq (zpure HooksConfig.mk)
      (optionalField fs "preAdd" parseStringZ))
      (optionalField fs "postAdd" parseStringZ))
      (optionalField fs "preCommit" parseStringZ)
  | _ => .error [⟨[], "Expected object"⟩]

/-- Parser for the `export.auto` group (config.ts lines 93–99). -/
def parseAutoExport : Json → ZResult AutoExportConfig
  | .obj fs =>
    zseq (zseq (zseq (zpure AutoExportConfig.mk)
      (defaultField fs "onCommit" parseBoolZ false))
      (defaultField fs "format" (parseEnumZ ["markdown", "json", "csv"]) "markdown"))
      (optionalField fs "location" parseStringZ)
  | _ => .error [⟨[], "Expected object"⟩]

/-- Parser for the `export` group (config.ts lines 91–101). -/
def parseExport : Json → ZResult ExportConfig
  | .obj fs =>
    zseq (zpure ExportConfig.mk)
      (optionalField fs "auto" parseAutoExport)
  | _ => .error [⟨[], "Expected object"⟩]

/-- Embedding of `FieldbookConfigSchema.parse` (config.ts lines 11–102). -/
def parseFieldbookConfig : Json → ZResult FieldbookConfig
  | .obj fs =>
    zseq (zseq (zseq (zseq (zseq (zseq (zseq (zpure FieldbookConfig.mk)
      (defaultField fs "version" (parseLiteralZ "1.0.0") "1.0.0"))
      (optionalField fs "author" parseAuthor))
      (optionalField fs "database" parseDatabase))
      (optionalField fs "cli" parseCli))
      (optionalField fs "entries" parseEntries))
      (optionalField fs "hooks" parseHooks))
      (optionalField fs "export" parseExport)
  | _ => .error [⟨[], "Expected object"⟩]

/-! ## The config loader (config.ts `loadConfig`) -/

/-- What `cosmiconfig`'s `explorer.search` found: the parsed raw document
and the file it came from. `loadConfig` takes this as an input because the
search itself is a filesystem walk external to the embedded logic. -/
structure SearchHit where
  /-- The raw configuration value found. -/
  config : Json
  /-- The path of the file it was read from. -/
  filepath : String
deriving Repr

/-- A validated config together with its source file (config.ts
`LoadedConfig`). -/
structure LoadedConfig where
  /-- The schema-validated configuration. -/
  config : FieldbookConfig
  /-- The path of the file it was loaded from. -/
  filepath : String
deriving Repr, DecidableEq

/-- The error message `loadConfig` builds from a `ZodError` (config.ts
lines 160–169): a header naming the file, then one line per issue holding
the dotted field path and the issue message. -/
def formatValidationError (filepath : String) (issues : List ZodIssue) : String :=
  "Configuration file validation failed at " ++ filepath ++ ":\n" ++
    joinWith "\n" (issues.map fun e => "  - " ++ joinWith "." e.path ++ ": " ++ e.message)

/-- Embedding of `loadConfig` (config.ts lines 131–172): no search hit is
the valid `null` outcome; a hit is validated against the schema, a
`ZodError` being rethrown as a descriptive message. -/
def loadConfig (searchResult : Option SearchHit) : Except String (Option LoadedConfig) :=
  match searchResult with
  | none => .ok none
  | some hit =>
    match parseFieldbookConfig hit.config with
    | .ok parsedConfig => .ok (some ⟨parsedConfig, hit.filepath⟩)
    | .error issues => .error (formatValidationError hit.filepath issues)

/-! ## resolvePaths (paths.ts lines 232–267) -/

/-- Embedding of `resolvePaths`: global mode, discovered config, or the
project-local fallback. The source never consults the `.fieldbook`
directory walk here, which the embedding reflects by never reading
`env.findFieldbookResult`. -/
def resolvePaths (env : Env) (loadedConfig : Option LoadedConfig)
    (options : ResolveOptions) : FieldbookPaths :=
  let home := env.homeEnv.getD env.cwd
  let globalConfigHome := (xdgConfig env).getD (pathJoin home ".config")
  let globalConfigDir := pathJoin globalConfigHome GLOBAL_DIR_NAME
  if options.global then
    { root := globalConfigDir
      database := pathJoin globalConfigDir DB_FILE_NAME
      projectConfig := none
      globalConfig := some (pathJoin globalConfigDir "config.json") }
  else
    match loadedConfig with
    | some lc =>
      let root := dirname lc.filepath
      { root := root
        database := pathJoin root DB_FILE_NAME
        projectConfig := some lc.filepath
        globalConfig := some (pathJoin globalConfigDir "config.json") }
    | none =>
      let localRoot := pathJoin env.cwd PROJECT_DIR_NAME
      { root := localRoot
        database := pathJoin localRoot DB_FILE_NAME
        projectConfig := some (pathJoin localRoot "config.json")
        globalConfig := some (pathJoin globalConfigDir "config.json") }

/-! ## Retry (packages/logbooks-lib/src/retry.ts lines 133–170)

The source's `retry` runs an effectful `fn` up to `maxAttempts + 1`
times. The embedding makes the effects explicit: `fn` becomes the
sequence of outcomes of its successive invocations (`fn i` is what the
`i`-th invocation, 0-based, would return), and the run is summarised as a
trace recording the final result, the number of invocations, and every
`onRetry`/`onExhausted` callback with its arguments in call order.
Delay computation and sleeping (lines 152–164) only affect timing, never
the control flow or the trace, and are not part of the model. -/

instance exceptDecEq {E T : Type} [DecidableEq E] [DecidableEq T] :
    DecidableEq (Except E T)
  | .ok a, .ok b => if h : a = b then .isTrue (by rw [h]) else .isFalse (by simp [h])
  | .ok _, .error _ => .isFalse (by simp)
  | .error _, .ok _ => .isFalse (by simp)
  | .error a, .error b =>
    if h : a = b then .isTrue (by rw [h]) else .isFalse (by simp [h])

/-- Observable trace of one `retry` run. -/
structure RetryTrace (E T : Type) where
  /-- What `retry` returns: the success value or the rethrown error. -/
  result : Except E T
  /-- How many times `fn` was invoked. -/
  calls : Nat
  /-- Arguments of each `onRetry(error, attempt)` call, in call order. -/
  onRetryCalls : List (E × Nat)
  /-- Arguments of each `onExhausted(error, attempts)` call, in call order. -/
  onExhaustedCalls : List (E × Nat)
deriving Repr, DecidableEq

/-- One iteration of the source's `for (let attempt = 0; attempt <=
opts.maxAttempts; attempt++)` loop, at loop index `attempt` with
`retriesLeft = maxAttempts - attempt` further iterations available.
On an error the source checks `attempt === maxAttempts ||
!isRetryable(error)` — exhaustion (`retriesLeft = 0`) rethrows after
calling `onExhausted(error, attempt + 1)`, a non-retryable error rethrows
immediately, and otherwise `onRetry(error, attempt + 1)` runs and the
loop continues. -/
def retryGo {E T : Type} (fn : Nat → Except E T) (isRetryable : E → Bool) :
    (attempt retriesLeft : Nat) → RetryTrace E T
  | attempt, 0 =>
    match fn attempt with
    | .ok t => ⟨.ok t, 1, [], []⟩
    | .error e => ⟨.error e, 1, [], [(e, attempt + 1)]⟩
  | attempt, retriesLeft + 1 =>
    match fn attempt with
    | .ok t => ⟨.ok t, 1, [], []⟩
    | .error e =>
      if isRetryable e then
        let rest := retryGo fn isRetryable (attempt + 1) retriesLeft
        ⟨rest.result, rest.calls + 1, (e, attempt + 1) :: rest.onRetryCalls,
          rest.onExhaustedCalls⟩
      else ⟨.error e, 1, [], []⟩

/-- Embedding of `retry` (retry.ts lines 133–170), parameterised by the
two options that shape the trace: `maxAttempts` and `isRetryable`. -/
def retry {E T : Type} (fn : Nat → Except E T) (isRetryable : E → Bool)
    (maxAttempts : Nat) : RetryTrace E T :=
  retryGo fn isRetryable 0 maxAttempts

/-! ## Legacy migration (packages/fieldbooks-lib/src/db.ts lines 92–123)

The filesystem is modelled as an association list from absolute paths to
file contents. `fs-extra`'s `move` (an external dependency) is modelled
from its implementation: with `overwrite: false` it rejects with a plain
`Error` whose message is `"dest already exists."` — and no `code`
property — whenever the destination exists. -/

/-- Finite filesystem: list of (absolute path, file contents). -/
abbrev FS : Type := List (String × String)

/-- Model of `fs.pathExists`. -/
def pathExists (fs : FS) (p : String) : Bool :=
  fs.any fun e => e.1 == p

/-- Model of a JavaScript error value: a message and an optional `code`
property (errno-style errors carry one, plain `Error`s do not). -/
structure JsError where
  /-- The error message. -/
  message : String
  /-- The `code` property, when present. -/
  code : Option String
deriving Repr, DecidableEq

/-- Model of JavaScript `String(error)` on an `Error` value. -/
def errString (e : JsError) : String := "Error: " ++ e.message

/-- Model of `fs-extra`'s `move(src, dest, { overwrite: false })`: rejects
with a plain `Error("dest already exists.")` (no `code`) when the
destination exists, with an `ENOENT` errno error when the source is
missing, and otherwise relocates the file. -/
def fsMove (fs : FS) (src dest : String) : Except JsError FS :=
  if pathExists fs dest then .error ⟨"dest already exists.", none⟩
  else
    match (fs.find? fun e => e.1 == src).map (fun e => e.2) with
    | none => .error ⟨"no such file or directory", some "ENOENT"⟩
    | some contents => .ok ((dest, contents) :: fs.filter fun e => !(e.1 == src))

/-- The error thrown by the migration on a non-`EEXIST` move failure
(`FieldbooksDbError` with an operation tag). -/
structure FieldbooksDbError where
  /-- The error message. -/
  message : String
  /-- The operation tag. -/
  operation : String
deriving Repr, DecidableEq

/-- Embedding of `migrateLegacyDb` (db.ts lines 92–123): look for the two
legacy filenames in the current working directory; when one exists, move
it to `newRootDir/fieldbook.sqlite` without overwrite, treating a failure
whose `code` is `EEXIST` as a skip-with-warning and anything else as
fatal. On success the trace carries the resulting filesystem and the
warnings logged. -/
def migrateLegacyDb (fs : FS) (cwd newRootDir : String) :
    Except FieldbooksDbError (FS × List String) :=
  let legacyDbPath := pathJoin cwd "fieldbooks.sqlite"
  let legacyDbPathAlt := pathJoin cwd "fieldbook.sqlite"
  let legacyPath :=
    if pathExists fs legacyDbPath then some legacyDbPath
    else if pathExists fs legacyDbPathAlt then some legacyDbPathAlt
    else none
  match legacyPath with
  | none => .ok (fs, [])
  | some lp =>
    let newDbPath := pathJoin newRootDir "fieldbook.sqlite"
    match fsMove fs lp newDbPath with
    | .ok fs2 => .ok (fs2, [])
    | .error e =>
      if e.code = some "EEXIST" then
        .ok (fs, ["! Migration skipped: Target file " ++ newDbPath ++ " already exists."])
      else
        .error ⟨"Failed to migrate legacy database: " ++ errString e, "migrateLegacyDb"⟩

/-! ## Sample values used by counterexamples and witnesses -/

/-- The fully-defaulted validated config, as produced by parsing `{}`. -/
def emptyFieldbookConfig : FieldbookConfig :=
  ⟨"1.0.0", none, none, none, none, none, none⟩

/-- A concrete environment: working directory `/p`, home `/home/u`, no
overriding environment variables, no `.fieldbook` found by the walk. -/
def envC3 : Env :=
  { cwd := "/p", osHome := "/home/u", homeEnv := some "/home/u",
    xdgConfigHomeEnv := none, fieldbooksPathEnv := none,
    fieldbooksDbEnv := none, findFieldbookResult := none }

/-- A concrete filesystem holding a legacy database in the working
directory and an already-occupied destination in the new root. -/
def legacyConflictFS : FS :=
  [("/w/fieldbooks.sqlite", "legacy-bytes"),
   ("/w/.fieldbook/fieldbook.sqlite", "existing-bytes")]

/-! ## Claim theorems -/

/-- C1: with both an explicit directory in `options.path` and
`options.global = true`, the path resolver returns the explicit path
resolved to absolute — resolution rule 1 wins over rule 2, so the global
config-home directory is not used. -/
theorem getFieldbookDir_explicit_path_wins (env : Env) (p : String) (hp : p ≠ "") :
    getFieldbookDir env { global := true, path := some p } = resolvePath env.cwd p := by
  simp [getFieldbookDir, truthy, hp]

/-- Witness for C1 at the explicit path `/custom` under a concrete
environment. -/
theorem getFieldbookDir_explicit_path_wins_witness :
    ("/custom" : String) ≠ "" ∧
      getFieldbookDir envC3 { global := true, path := some "/custom" } = "/custom" :=
  ⟨by decide,
    (getFieldbookDir_explicit_path_wins envC3 "/custom" (by decide)).trans (by decide)⟩

/-- C2 (code bug): with a legacy database in the working directory and an
already-existing destination file, `migrateLegacyDb` does not skip with a
warning — `fs-extra`'s conflict rejection is a plain `Error` without a
`code` property, so the `error.code === "EEXIST"` test fails and the call
throws a `FieldbooksDbError`. -/
theorem migrateLegacyDb_conflict_throws :
    migrateLegacyDb legacyConflictFS "/w" "/w/.fieldbook" =
      .error ⟨"Failed to migrate legacy database: Error: dest already exists.",
        "migrateLegacyDb"⟩ := by
  decide

/-- C3 (counterexample): `projectConfig` is not a function of the chosen
root. Two calls that return the same root — one that discovered a config
at `/p/.fieldbook/package.json`, one that fell back to
`/p/.fieldbook` — return different `projectConfig` values. -/
theorem resolvePaths_projectConfig_not_root_function :
    (resolvePaths envC3 (some ⟨emptyFieldbookConfig, "/p/.fieldbook/package.json"⟩)
        { global := false }).root =
      (resolvePaths envC3 none { global := false }).root
    ∧ (resolvePaths envC3 (some ⟨emptyFieldbookConfig, "/p/.fieldbook/package.json"⟩)
        { global := false }).projectConfig ≠
      (resolvePaths envC3 none { global := false }).projectConfig := by
  constructor <;> decide

/-- C3 (amended): `globalConfig` is a deterministic function of the global
config-home alone, independent of the branch taken; `projectConfig`
however depends on the branch: `none` in global mode, the discovered
config's own filepath in config-found mode, and `root/config.json` only
in the fallback branch. -/
theorem resolvePaths_config_paths_by_branch (env : Env)
    (loadedConfig : Option LoadedConfig) (options : ResolveOptions) :
    (resolvePaths env loadedConfig options).globalConfig =
      some (pathJoin
        (pathJoin ((xdgConfig env).getD (pathJoin (env.homeEnv.getD env.cwd) ".config"))
          GLOBAL_DIR_NAME)
        "config.json")
    ∧ (resolvePaths env loadedConfig options).projectConfig =
        (if options.global then none
         else
           match loadedConfig with
           | some lc => some lc.filepath
           | none => some (pathJoin (pathJoin env.cwd PROJECT_DIR_NAME) "config.json")) := by
  cases options with
  | mk g => cases g <;> cases loadedConfig <;> exact ⟨rfl, rfl⟩

/-- C7: in global mode the resolved root is the XDG-style config home
(falling back to `home/.config`) joined with the app directory name, for
every loaded config, and the database is that root joined with the fixed
database filename. -/
theorem resolvePaths_global_mode (env : Env) (loadedConfig : Option LoadedConfig) :
    (resolvePaths env loadedConfig { global := true }).root =
      pathJoin ((xdgConfig env).getD (pathJoin (env.homeEnv.getD env.cwd) ".config"))
        GLOBAL_DIR_NAME
    ∧ (resolvePaths env loadedConfig { global := true }).database =
      pathJoin (resolvePaths env loadedConfig { global := true }).root DB_FILE_NAME :=
  ⟨rfl, rfl⟩

/-- C8: on every input and in every branch, the resolved database path is
the resolved root joined with the single fixed database filename. -/
theorem resolvePaths_database_in_root (env : Env) (loadedConfig : Option LoadedConfig)
    (options : ResolveOptions) :
    (resolvePaths env loadedConfig options).database =
      pathJoin (resolvePaths env loadedConfig options).root DB_FILE_NAME := by
  cases options with
  | mk g => cases g <;> cases loadedConfig <;> rfl

/-- C10: with a discovered config and global mode off, the resolved root
is the directory containing the config file, the database sits next to
that config file, and the result never depends on what the `.fieldbook`
directory walk would have returned. -/
theorem resolvePaths_config_found_branch (env : Env) (lc : LoadedConfig) :
    (resolvePaths env (some lc) { global := false }).root = dirname lc.filepath
    ∧ (resolvePaths env (some lc) { global := false }).database =
        pathJoin (dirname lc.filepath) DB_FILE_NAME
    ∧ ∀ fr : Option String,
        resolvePaths { env with findFieldbookResult := fr } (some lc) { global := false } =
          resolvePaths env (some lc) { global := false } := by
  refine ⟨rfl, rfl, fun fr => ?_⟩
  cases env
  rfl

/-! ## Retry lemmas -/

/-- Each loop run invokes `fn` at most once per available iteration. -/
theorem retryGo_calls_le {E T : Type} (fn : Nat → Except E T) (isR : E → Bool) :
    ∀ (fuel attempt : Nat), (retryGo fn isR attempt fuel).calls ≤ fuel + 1 := by
  intro fuel
  induction fuel with
  | zero =>
    intro attempt
    cases h : fn attempt <;> simp [retryGo, h]
  | succ n ih =>
    intro attempt
    cases h : fn attempt with
    | ok t => simp [retryGo, h]
    | error e =>
      by_cases hr : isR e
      · have := ih (attempt + 1)
        simp only [retryGo, h, hr, if_true]
        omega
      · simp [retryGo, h, hr]

/-- Shifting a map over an initial range by one position. -/
theorem range_map_shift {γ : Type} (g : Nat → γ) (m a : Nat) :
    (List.range (m + 1)).map (fun i => g (a + i)) =
      g a :: (List.range m).map (fun i => g (a + 1 + i)) := by
  rw [List.range_succ_eq_map, List.map_cons, List.map_map]
  have hfun : ((fun i => g (a + i)) ∘ Nat.succ) = fun i => g (a + 1 + i) := by
    funext i
    have : a + Nat.succ i = a + 1 + i := by omega
    simp [Function.comp, this]
  rw [hfun, Nat.add_zero]

/-- A run whose first `m` outcomes are retryable errors and whose
`(m+1)`-st outcome is a success, with `m` within the retry budget,
produces the success after `m + 1` invocations with one `onRetry` call
per error, attempt numbers increasing from the 1-based attempt index. -/
theorem retryGo_success {E T : Type} (fn : Nat → Except E T) (isR : E → Bool)
    (t : T) (errs : Nat → E) :
    ∀ (m a fuel : Nat), m ≤ fuel →
      (∀ i, i < m → fn (a + i) = .error (errs (a + i)) ∧ isR (errs (a + i)) = true) →
      fn (a + m) = .ok t →
      retryGo fn isR a fuel =
        ⟨.ok t, m + 1, (List.range m).map (fun i => (errs (a + i), a + i + 1)), []⟩ := by
  intro m
  induction m with
  | zero =>
    intro a fuel _ _ hok
    have h : fn a = .ok t := by simpa using hok
    cases fuel <;> simp [retryGo, h]
  | succ m ih =>
    intro a fuel hle herr hok
    obtain ⟨f, rfl⟩ : ∃ f, fuel = f + 1 := ⟨fuel - 1, by omega⟩
    have h0 := herr 0 (Nat.succ_pos m)
    rw [Nat.add_zero] at h0
    have hrec := ih (a + 1) f (by omega)
      (fun i hi => by
        have h := herr (i + 1) (by omega)
        have harith : a + (i + 1) = a + 1 + i := by omega
        rw [harith] at h
        exact h)
      (by
        have harith : a + (m + 1) = a + 1 + m := by omega
        rw [harith] at hok
        exact hok)
    have hlist := range_map_shift (fun n => (errs n, n + 1)) m a
    simp only [retryGo, h0.1, h0.2, if_true, hrec]
    simp only [hlist]

/-- C4: `retry` invokes `fn` at most `maxAttempts + 1` times on every
input; with `maxAttempts = 0` it invokes `fn` exactly once with no
retries; and when the first `m` outcomes are retryable failures followed
by a success within the budget, it returns the success value after
exactly `m + 1` invocations, with `onRetry` called exactly `m` times at
attempt numbers `1, …, m` in increasing order. -/
theorem retry_attempt_bounds {E T : Type} (fn : Nat → Except E T)
    (isRetryable : E → Bool) (maxAttempts : Nat) :
    (retry fn isRetryable maxAttempts).calls ≤ maxAttempts + 1
    ∧ (maxAttempts = 0 →
        (retry fn isRetryable maxAttempts).calls = 1
        ∧ (retry fn isRetryable maxAttempts).onRetryCalls = [])
    ∧ ∀ (m : Nat) (t : T) (errs : Nat → E),
        m ≤ maxAttempts →
        (∀ i, i < m → fn i = .error (errs i) ∧ isRetryable (errs i) = true) →
        fn m = .ok t →
        (retry fn isRetryable maxAttempts).result = .ok t
        ∧ (retry fn isRetryable maxAttempts).calls = m + 1
        ∧ (retry fn isRetryable maxAttempts).onRetryCalls =
            (List.range m).map fun i => (errs i, i + 1) := by
  refine ⟨retryGo_calls_le fn isRetryable maxAttempts 0, ?_, ?_⟩
  · rintro rfl
    cases h : fn 0 <;> simp [retry, retryGo, h]
  · intro m t errs hm herr hok
    have h := retryGo_success fn isRetryable t errs m 0 maxAttempts hm
      (fun i hi => by simpa using herr i hi) (by simpa using hok)
    unfold retry
    rw [h]
    refine ⟨rfl, rfl, ?_⟩
    simp

/-- Witness for C4: a function failing twice then succeeding, with
`maxAttempts = 3` and every error retryable, is invoked exactly 3 times,
returns the success value 42, and `onRetry` runs twice with attempt
numbers 1 then 2. -/
theorem retry_attempt_bounds_witness :
    (2 ≤ 3)
    ∧ (retry (fun i => if i < 2 then .error i else .ok 42) (fun _ => true) 3).result =
        .ok 42
    ∧ (retry (fun i => if i < 2 then .error i else .ok 42) (fun _ => true) 3).calls = 3
    ∧ (retry (fun i => if i < 2 then .error i else .ok 42) (fun _ => true) 3).onRetryCalls =
        [(0, 1), (1, 2)] := by
  have h := (retry_attempt_bounds (fun i => if i < 2 then .error i else .ok 42)
    (fun _ => true) 3).2.2 2 42 (fun i => i) (by decide) (by decide) (by decide)
  exact ⟨by decide, h.1, h.2.1, h.2.2.trans (by decide)⟩

/-- C5: when the first outcome is an error classified non-retryable, the
error is rethrown after exactly one invocation regardless of
`maxAttempts`, with no `onRetry` call; `onExhausted` is not called on the
non-retryable short-circuit — it runs only when the attempt count is
exhausted, i.e. only in the degenerate `maxAttempts = 0` case where the
single attempt already exhausts the budget. -/
theorem retry_nonretryable_first_error {E T : Type} (fn : Nat → Except E T)
    (isRetryable : E → Bool) (maxAttempts : Nat) (e : E)
    (h0 : fn 0 = .error e) (hnr : isRetryable e = false) :
    (retry fn isRetryable maxAttempts).result = .error e
    ∧ (retry fn isRetryable maxAttempts).calls = 1
    ∧ (retry fn isRetryable maxAttempts).onRetryCalls = []
    ∧ (maxAttempts ≠ 0 → (retry fn isRetryable maxAttempts).onExhaustedCalls = [])
    ∧ (maxAttempts = 0 → (retry fn isRetryable maxAttempts).onExhaustedCalls = [(e, 1)]) := by
  cases maxAttempts with
  | zero => refine ⟨?_, ?_, ?_, ?_, ?_⟩ <;> simp [retry, retryGo, h0, hnr]
  | succ n => refine ⟨?_, ?_, ?_, ?_, ?_⟩ <;> simp [retry, retryGo, h0, hnr]

/-- Witness for C5: a function that always fails with a non-retryable
error, under `maxAttempts = 5`, fails after exactly one invocation and
`onExhausted` never runs. -/
theorem retry_nonretryable_first_error_witness :
    (fun (_ : Nat) => (.error "fatal" : Except String Nat)) 0 = .error "fatal"
    ∧ (fun (_ : String) => false) "fatal" = false
    ∧ (retry (fun _ => (.error "fatal" : Except String Nat)) (fun _ => false) 5).result =
        .error "fatal"
    ∧ (retry (fun _ => (.error "fatal" : Except String Nat)) (fun _ => false) 5).calls = 1
    ∧ (retry (fun _ => (.error "fatal" : Except String Nat))
        (fun _ => false) 5).onExhaustedCalls = [] := by
  have h := retry_nonretryable_first_error
    (fun _ => (.error "fatal" : Except String Nat)) (fun _ => false) 5 "fatal" rfl rfl
  exact ⟨rfl, rfl, h.1, h.2.1, h.2.2.2.1 (by decide)⟩

/-! ## String containment -/

/-- Substring containment, stated over the character lists: `sub` occurs
contiguously inside `s`. -/
def strContains (s sub : String) : Prop :=
  ∃ l r : List Char, s.data = l ++ sub.data ++ r

theorem string_data_append (s t : String) : (s ++ t).data = s.data ++ t.data := by
  cases s
  cases t
  rfl

theorem strContains_append_right {t sub : String} (s : String)
    (h : strContains t sub) : strContains (s ++ t) sub := by
  obtain ⟨l, r, hl⟩ := h
  exact ⟨s.data ++ l, r, by rw [string_data_append, hl]; simp⟩

theorem strContains_append_left {s sub : String} (t : String)
    (h : strContains s sub) : strContains (s ++ t) sub := by
  obtain ⟨l, r, hl⟩ := h
  exact ⟨l, r ++ t.data, by rw [string_data_append, hl]; simp⟩

theorem strContains_append_end (a sub : String) : strContains (a ++ sub) sub :=
  ⟨a.data, [], by rw [string_data_append]; simp⟩

/-- An element of a joined list occurs inside the join, so anything it
contains is contained in the join. -/
theorem joinWith_mem_contains (sep x sub : String) (h : strContains x sub) :
    ∀ l : List String, x ∈ l → strContains (joinWith sep l) sub := by
  intro l
  induction l with
  | nil => intro hx; cases hx
  | cons y ys ih =>
    intro hx
    rcases List.mem_cons.mp hx with heq | hmem
    · subst heq
      cases ys with
      | nil => simpa [joinWith] using h
      | cons z zs =>
        exact strContains_append_left _ (strContains_append_left _ h)
    · cases ys with
      | nil => cases hmem
      | cons z zs => exact strContains_append_right _ (ih hmem)

/-! ## Inversion lemmas for the zod combinators -/

theorem zseq_ok_inv {α β : Type} {x : ZResult (α → β)} {y : ZResult α} {b : β}
    (h : zseq x y = .ok b) : ∃ f a, x = .ok f ∧ y = .ok a ∧ f a = b := by
  cases x with
  | ok f =>
    cases y with
    | ok a =>
      refine ⟨f, a, rfl, rfl, ?_⟩
      simpa [zseq] using h
    | error e => simp [zseq] at h
  | error e1 =>
    cases y with
    | ok a => simp [zseq] at h
    | error e2 => simp [zseq] at h

theorem optionalField_ok_none_inv {α : Type} {fields : List (String × Json)}
    {key : String} {p : Json → ZResult α} {v : Option α}
    (hnone : getField fields key = none) (h : optionalField fields key p = .ok v) :
    v = none := by
  unfold optionalField at h
  rw [hnone] at h
  injection h with h
  exact h.symm

theorem optionalField_ok_some_inv {α : Type} {fields : List (String × Json)}
    {key : String} {p : Json → ZResult α} {j : Json} {v : Option α}
    (hsome : getField fields key = some j) (h : optionalField fields key p = .ok v) :
    ∃ a, p j = .ok a ∧ v = some a := by
  unfold optionalField at h
  rw [hsome] at h
  have h2 : (match p j with
    | Except.ok a => (Except.ok (some a) : ZResult (Option α))
    | Except.error issues => Except.error (underKey key issues)) = Except.ok v := h
  cases hp : p j with
  | ok a =>
    rw [hp] at h2
    injection h2 with h2
    exact ⟨a, rfl, h2.symm⟩
  | error es =>
    rw [hp] at h2
    exact Except.noConfusion h2

theorem defaultField_ok_none_inv {α : Type} {fields : List (String × Json)}
    {key : String} {p : Json → ZResult α} {d v : α}
    (hnone : getField fields key = none) (h : defaultField fields key p d = .ok v) :
    v = d := by
  unfold defaultField at h
  rw [hnone] at h
  injection h with h
  exact h.symm

/-! ## Inversion lemmas for the schema parsers -/

/-- Decompose a successful top-level parse into its `database` and `cli`
components. -/
theorem parseFieldbookConfig_ok_inv {fields : List (String × Json)}
    {c : FieldbookConfig} (h : parseFieldbookConfig (Json.obj fields) = .ok c) :
    optionalField fields "database" parseDatabase = .ok c.database
    ∧ optionalField fields "cli" parseCli = .ok c.cli := by
  unfold parseFieldbookConfig at h
  obtain ⟨g1, xExport, hA1, hxExport, happ1⟩ := zseq_ok_inv h
  obtain ⟨g2, xHooks, hA2, hxHooks, happ2⟩ := zseq_ok_inv hA1
  obtain ⟨g3, xEntries, hA3, hxEntries, happ3⟩ := zseq_ok_inv hA2
  obtain ⟨g4, xCli, hA4, hxCli, happ4⟩ := zseq_ok_inv hA3
  obtain ⟨g5, xDatabase, hA5, hxDatabase, happ5⟩ := zseq_ok_inv hA4
  obtain ⟨g6, xAuthor, hA6, hxAuthor, happ6⟩ := zseq_ok_inv hA5
  obtain ⟨g7, xVersion, hA7, hxVersion, happ7⟩ := zseq_ok_inv hA6
  subst happ1
  subst happ2
  subst happ3
  subst happ4
  subst happ5
  subst happ6
  subst happ7
  have h7 : (Except.ok FieldbookConfig.mk : ZResult _) = .ok g7 := hA7
  injection h7 with h7
  subst h7
  exact ⟨hxDatabase, hxCli⟩

/-- Decompose a successful `cli` group parse into its `listLimit`
component. -/
theorem parseCli_ok_inv {cliFields : List (String × Json)} {cc : CliConfig}
    (h : parseCli (Json.obj cliFields) = .ok cc) :
    defaultField cliFields "listLimit" parseIntPositiveZ 20 = .ok cc.listLimit := by
  unfold parseCli at h
  obtain ⟨g1, xEditor, hA1, hxEditor, happ1⟩ := zseq_ok_inv h
  obtain ⟨g2, xTsFormat, hA2, hxTsFormat, happ2⟩ := zseq_ok_inv hA1
  obtain ⟨g3, xRich, hA3, hxRich, happ3⟩ := zseq_ok_inv hA2
  obtain ⟨g4, xLimit, hA4, hxLimit, happ4⟩ := zseq_ok_inv hA3
  obtain ⟨g5, xCmd, hA5, hxCmd, happ5⟩ := zseq_ok_inv hA4
  subst happ1
  subst happ2
  subst happ3
  subst happ4
  subst happ5
  have h5 : (Except.ok CliConfig.mk : ZResult _) = .ok g5 := hA5
  injection h5 with h5
  subst h5
  exact hxLimit

/-- Decompose a successful `database` group parse into its `backup`
component. -/
theorem parseDatabase_ok_inv {dbFields : List (String × Json)} {dc : DatabaseConfig}
    (h : parseDatabase (Json.obj dbFields) = .ok dc) :
    optionalField dbFields "backup" parseBackup = .ok dc.backup := by
  unfold parseDatabase at h
  obtain ⟨g1, xBackup, hA1, hxBackup, happ1⟩ := zseq_ok_inv h
  obtain ⟨g2, xPath, hA2, hxPath, happ2⟩ := zseq_ok_inv hA1
  subst happ1
  subst happ2
  have h2 : (Except.ok DatabaseConfig.mk : ZResult _) = .ok g2 := hA2
  injection h2 with h2
  subst h2
  exact hxBackup

/-- Decompose a successful `backup` group parse into its `interval`
component. -/
theorem parseBackup_ok_inv {bFields : List (String × Json)} {bc : BackupConfig}
    (h : parseBackup (Json.obj bFields) = .ok bc) :
    defaultField bFields "interval" (parseEnumZ ["hourly", "daily", "weekly"]) "daily" =
      .ok bc.interval := by
  unfold parseBackup at h
  obtain ⟨g1, xLoc, hA1, hxLoc, happ1⟩ := zseq_ok_inv h
  obtain ⟨g2, xRet, hA2, hxRet, happ2⟩ := zseq_ok_inv hA1
  obtain ⟨g3, xInt, hA3, hxInt, happ3⟩ := zseq_ok_inv hA2
  obtain ⟨g4, xEn, hA4, hxEn, happ4⟩ := zseq_ok_inv hA3
  subst happ1
  subst happ2
  subst happ3
  subst happ4
  have h4 : (Except.ok BackupConfig.mk : ZResult _) = .ok g4 := hA4
  injection h4 with h4
  subst h4
  exact hxInt

/-- A raw config document whose `author.defaultType` holds the invalid
enum value `"robot"`. -/
def robotDoc : Json :=
  Json.obj [("author", Json.obj [("defaultType", Json.str "robot")])]

/-- The `"robot"` document together with the file it was found in. -/
def robotHit : SearchHit := ⟨robotDoc, "/p/.fieldbookrc.json"⟩

/-- The result of parsing `{"cli": {}, "database": {"backup": {}}}`:
defaults filled inside the present groups, absent groups left out. -/
def presentGroupsConfig : FieldbookConfig :=
  ⟨"1.0.0", none,
    some ⟨none, some ⟨false, "daily", none, "./backups/"⟩⟩,
    some ⟨"list", 20, true, "relative", none⟩,
    none, none, none⟩

/-- C6: the loader returns `null` exactly when no candidate config was
found (never substituting a default-filled object), errors exactly when a
candidate was found but failed schema validation, and the error message
then contains the dotted path of every failing field. -/
theorem loadConfig_null_iff_and_error_paths (searchResult : Option SearchHit) :
    (loadConfig searchResult = .ok none ↔ searchResult = none)
    ∧ ∀ hit, searchResult = some hit →
        (∀ cfg, parseFieldbookConfig hit.config = .ok cfg →
            loadConfig searchResult = .ok (some ⟨cfg, hit.filepath⟩))
        ∧ ∀ issues, parseFieldbookConfig hit.config = .error issues →
            loadConfig searchResult = .error (formatValidationError hit.filepath issues)
            ∧ ∀ i ∈ issues,
                strContains (formatValidationError hit.filepath issues)
                  (joinWith "." i.path) := by
  constructor
  · cases searchResult with
    | none => simp [loadConfig]
    | some hit =>
      simp only [loadConfig]
      cases hp : parseFieldbookConfig hit.config with
      | ok c => simp
      | error issues => simp
  · intro hit hsr
    subst hsr
    constructor
    · intro cfg hcfg
      simp [loadConfig, hcfg]
    · intro issues hiss
      refine ⟨by simp [loadConfig, hiss], ?_⟩
      intro i hi
      unfold formatValidationError
      apply strContains_append_right
      refine joinWith_mem_contains "\n"
        ("  - " ++ joinWith "." i.path ++ ": " ++ i.message) (joinWith "." i.path)
        ?_ _ (List.mem_map_of_mem _ hi)
      exact strContains_append_left _
        (strContains_append_left _ (strContains_append_end _ _))

/-- Witness for C6: the document with `author.defaultType = "robot"`
fails validation, the loader raises, and the message contains the dotted
path `author.defaultType`. -/
theorem loadConfig_null_iff_and_error_paths_witness :
    parseFieldbookConfig robotDoc =
      .error [⟨["author", "defaultType"], "Invalid enum value"⟩]
    ∧ loadConfig (some robotHit) =
        .error (formatValidationError "/p/.fieldbookrc.json"
          [⟨["author", "defaultType"], "Invalid enum value"⟩])
    ∧ strContains
        (formatValidationError "/p/.fieldbookrc.json"
          [⟨["author", "defaultType"], "Invalid enum value"⟩])
        "author.defaultType" := by
  have h := ((loadConfig_null_iff_and_error_paths (some robotHit)).2 robotHit rfl).2
    [⟨["author", "defaultType"], "Invalid enum value"⟩] rfl
  refine ⟨rfl, h.1, ?_⟩
  have hjoin : joinWith "." ["author", "defaultType"] = "author.defaultType" := rfl
  rw [← hjoin]
  exact h.2 ⟨["author", "defaultType"], "Invalid enum value"⟩ (by simp)

/-- C9 (counterexample): schema validation of the empty object — every
optional group absent — succeeds, but the result's `cli` group is absent
(`none`), not a default-filled object with `listLimit = 20`; absent
optional groups are not filled with defaults. -/
theorem schema_absent_group_not_defaulted :
    parseFieldbookConfig (Json.obj []) = .ok emptyFieldbookConfig
    ∧ emptyFieldbookConfig.cli = none :=
  ⟨rfl, rfl⟩

/-- C9 (amended): validation of an object omitting optional groups
succeeds (the empty object parses to the all-defaults result), an absent
`cli` group stays absent rather than default-filled, and the documented
defaults are filled within groups that are present: `cli.listLimit`
defaults to 20 when `cli` is present without `listLimit`, and
`database.backup.interval` defaults to `"daily"` when `backup` is present
without `interval`. -/
theorem schema_defaults_within_present_groups :
    parseFieldbookConfig (Json.obj []) = .ok emptyFieldbookConfig
    ∧ ∀ (fields : List (String × Json)) (c : FieldbookConfig),
        parseFieldbookConfig (Json.obj fields) = .ok c →
        (getField fields "cli" = none → c.cli = none)
        ∧ (∀ cliFields, getField fields "cli" = some (Json.obj cliFields) →
            getField cliFields "listLimit" = none →
            ∃ cc, c.cli = some cc ∧ cc.listLimit = 20)
        ∧ (∀ dbFields bFields,
            getField fields "database" = some (Json.obj dbFields) →
            getField dbFields "backup" = some (Json.obj bFields) →
            getField bFields "interval" = none →
            ∃ dc bc, c.database = some dc ∧ dc.backup = some bc ∧ bc.interval = "daily") := by
  refine ⟨rfl, ?_⟩
  intro fields c h
  obtain ⟨hDatabase, hCli⟩ := parseFieldbookConfig_ok_inv h
  refine ⟨?_, ?_, ?_⟩
  · intro hnone
    exact optionalField_ok_none_inv hnone hCli
  · intro cliFields hsome hlim
    obtain ⟨cc, hcc, hv⟩ := optionalField_ok_some_inv hsome hCli
    refine ⟨cc, hv, ?_⟩
    have hlimit := parseCli_ok_inv hcc
    exact (defaultField_ok_none_inv hlim hlimit).symm ▸ rfl
  · intro dbFields bFields hdb hbk hint
    obtain ⟨dc, hdc, hvd⟩ := optionalField_ok_some_inv hdb hDatabase
    obtain ⟨bc, hbc, hvb⟩ := optionalField_ok_some_inv hbk (parseDatabase_ok_inv hdc)
    refine ⟨dc, bc, hvd, hvb, ?_⟩
    have hintv := parseBackup_ok_inv hbc
    exact (defaultField_ok_none_inv hint hintv).symm ▸ rfl

/-- Witness for C9 (amended) at `{"cli": {}, "database": {"backup": {}}}`:
validation succeeds and fills `listLimit = 20` and `interval = "daily"`
inside the present groups. -/
theorem schema_defaults_within_present_groups_witness :
    parseFieldbookConfig
        (Json.obj [("cli", Json.obj []), ("database", Json.obj [("backup", Json.obj [])])]) =
      .ok presentGroupsConfig
    ∧ (∃ cc, presentGroupsConfig.cli = some cc ∧ cc.listLimit = 20)
    ∧ (∃ dc bc, presentGroupsConfig.database = some dc ∧ dc.backup = some bc
        ∧ bc.interval = "daily") := by
  have h := schema_defaults_within_present_groups.2
    [("cli", Json.obj []), ("database", Json.obj [("backup", Json.obj [])])]
    presentGroupsConfig rfl
  exact ⟨rfl, h.2.1 [] rfl rfl, h.2.2 [("backup", Json.obj [])] [] rfl rfl rfl⟩

end Trails
